import Mathlib

/-!
# Verification of the go-onvif client library core

Shallow embedding of the ONVIF client library (`client.go`,
`device_security.go`, `media.go`) together with models of the parts of the
repository whose sources are not present in this checkout (the
`internal/soap` transport package and the WS-Discovery engine), which are
modelled from the specification where noted.

The embedding follows the Go source: the `Client` struct becomes a Lean
structure, methods become pure functions (state-passing where the method
mutates the receiver), fallible operations return `Except`, and the SOAP
transport is abstracted as an oracle supplying the outcome of each
`soap.Client.Call`.
-/

set_option maxHeartbeats 1000000
set_option maxRecDepth 10000
set_option linter.unusedVariables false

namespace Onvif

/-! ## Client state (client.go)

`Client` carries the endpoint, the credential pair guarded by `mu`, and the
per-service endpoints.  The HTTP client and the mutex itself are not data
relevant to the claims; the mutex's effect is modelled separately by the
small-step interleaving semantics below. -/

structure Client where
  endpoint : String
  username : String
  password : String
  mediaEndpoint : String
  ptzEndpoint : String
  imagingEndpoint : String
  eventEndpoint : String
  deriving Repr, DecidableEq

/-- `SetCredentials` (client.go:150-155): writes both fields under the
exclusive lock. -/
def Client.SetCredentials (c : Client) (username password : String) : Client :=
  { c with username := username, password := password }

/-- `GetCredentials` (client.go:158-162): reads both fields under the shared
lock and returns them; the receiver is not mutated, which the state-passing
form makes explicit by returning the unchanged client. -/
def Client.GetCredentials (c : Client) : (String × String) × Client :=
  ((c.username, c.password), c)

/-- C4: after `SetCredentials u p` with no intervening write,
`GetCredentials` returns exactly `(u, p)`, and `GetCredentials` leaves the
client state unchanged. -/
theorem getCredentials_after_setCredentials (c : Client) (u p : String) :
    ((c.SetCredentials u p).GetCredentials).1 = (u, p) ∧
    ∀ c' : Client, (c'.GetCredentials).2 = c' := by
  constructor
  · rfl
  · intro c'
    rfl

/-! ## SOAP operation wrappers (device_security.go, media.go)

Every public operation wrapper follows the same pattern in Go:

```
if err := soapClient.Call(ctx, endpoint, "", req, &resp); err != nil {
    return nil, fmt.Errorf("<Op> failed: %w", err)
}
// map resp into the public result type
```

The transport (`internal/soap`, not part of this checkout) is abstracted as
an oracle `CallOracle ρ` giving the outcome of the n-th `Call` issued by the
wrapper; the wrappers run in `StateM Nat`, the state counting issued calls,
so that "exactly one HTTP POST per invocation" is a provable statement. -/

/-- Outcome of one `soap.Client.Call`: either a Go error (modelled as its
message string) or the response decoded into the wrapper's wire struct. -/
abbrev CallOracle (ρ : Type) := Nat → Except String ρ

/-- One invocation of `soapClient.Call(...)`: consumes the next oracle entry
and increments the call counter. -/
def soapCall (oracle : CallOracle ρ) : StateM Nat (Except String ρ) :=
  fun n => (oracle n, n + 1)

/-- `fmt.Errorf("<op> failed: %w", err)`: the wrapper's error wraps the
underlying `Call` error, annotated with the operation name. -/
inductive GoError where
  | wrapped (op : String) (err : String)
  deriving Repr, DecidableEq

/-- `Except.isOk` helper matching Go's `err == nil` test. -/
def exceptIsError {ε α : Type} : Except ε α → Bool
  | .error _ => true
  | .ok _ => false

/-! ### GetRemoteUser (device_security.go:71-104) -/

/-- Wire shape of the `RemoteUser` element inside `GetRemoteUserResponse`. -/
structure RemoteUserWire where
  username : String
  password : String
  useDerivedPassword : Bool
  deriving Repr, DecidableEq

/-- Wire shape of `getRemoteUserResponse`: the `RemoteUser` element is a
pointer in Go, hence optional. -/
structure GetRemoteUserResponseWire where
  remoteUser : Option RemoteUserWire
  deriving Repr, DecidableEq

/-- Public `RemoteUser` result type. -/
structure RemoteUser where
  username : String
  password : String
  useDerivedPassword : Bool
  deriving Repr, DecidableEq

/-- `Client.GetRemoteUser`: one `Call`; on error, wrap with the operation
name; on success with absent `RemoteUser`, return `(nil, nil)`; otherwise
map the wire struct field-by-field. -/
def getRemoteUserOp (oracle : CallOracle GetRemoteUserResponseWire) :
    StateM Nat (Except GoError (Option RemoteUser)) := do
  match ← soapCall oracle with
  | .error e => pure (.error (.wrapped "GetRemoteUser" e))
  | .ok resp =>
    match resp.remoteUser with
    | none => pure (.ok none)
    | some ru => pure (.ok (some ⟨ru.username, ru.password, ru.useDerivedPassword⟩))

/-! ### SetRemoteUser (device_security.go:107-137) -/

/-- `Client.SetRemoteUser`: one `Call` with a nil response target; on error,
wrap with the operation name; on success return nil. The request-building
(optional `tds:RemoteUser` element) does not affect the result shape. -/
def setRemoteUserOp (remoteUser : Option RemoteUser)
    (oracle : CallOracle Unit) : StateM Nat (Except GoError Unit) := do
  match ← soapCall oracle with
  | .error e => pure (.error (.wrapped "SetRemoteUser" e))
  | .ok _ => pure (.ok ())

/-! ### GetIPAddressFilter (device_security.go:140-195) -/

/-- Wire shape of a prefixed address in `getIPAddressFilterResponse`. -/
structure PrefixedAddressWire where
  address : String
  prefixLength : Int
  deriving Repr, DecidableEq

/-- Wire shape of `getIPAddressFilterResponse`. -/
structure GetIPAddressFilterResponseWire where
  type : String
  ipv4Address : List PrefixedAddressWire
  ipv6Address : List PrefixedAddressWire
  deriving Repr, DecidableEq

structure PrefixedIPv4Address where
  address : String
  prefixLength : Int
  deriving Repr, DecidableEq

structure PrefixedIPv6Address where
  address : String
  prefixLength : Int
  deriving Repr, DecidableEq

/-- Public `IPAddressFilter` result type. -/
structure IPAddressFilter where
  type : String
  ipv4Address : List PrefixedIPv4Address
  ipv6Address : List PrefixedIPv6Address
  deriving Repr, DecidableEq

/-- `Client.GetIPAddressFilter`: one `Call`; on error wrap with the
operation name; on success map the wire filter element-wise. -/
def getIPAddressFilterOp (oracle : CallOracle GetIPAddressFilterResponseWire) :
    StateM Nat (Except GoError IPAddressFilter) := do
  match ← soapCall oracle with
  | .error e => pure (.error (.wrapped "GetIPAddressFilter" e))
  | .ok resp =>
    pure (.ok
      { type := resp.type
        ipv4Address := resp.ipv4Address.map fun a => ⟨a.address, a.prefixLength⟩
        ipv6Address := resp.ipv6Address.map fun a => ⟨a.address, a.prefixLength⟩ })

/-! ### GetDynamicDNS (device_security.go:312-341) -/

/-- Wire shape of `getDynamicDNSResponse.DynamicDNSInformation`: the device
reports `Type`, `Name` and `TTL` (all decoded as strings). -/
structure DynamicDNSInformationWire where
  type : String
  name : String
  ttl : String
  deriving Repr, DecidableEq

/-- Public `DynamicDNSInformation` result type; the zero value of the `TTL`
field is modelled as the empty string. -/
structure DynamicDNSInformation where
  type : String
  name : String
  ttl : String
  deriving Repr, DecidableEq

/-- `Client.GetDynamicDNS`: one `Call`; on error wrap with the operation
name; on success populate only `Type` and `Name` — the source constructs
`DynamicDNSInformation{Type: ..., Name: ...}` with the `TTL` field omitted
(comment in source: "TTL would need duration parsing"), so `TTL` keeps its
zero value. -/
def getDynamicDNSOp (oracle : CallOracle DynamicDNSInformationWire) :
    StateM Nat (Except GoError DynamicDNSInformation) := do
  match ← soapCall oracle with
  | .error e => pure (.error (.wrapped "GetDynamicDNS" e))
  | .ok resp => pure (.ok { type := resp.type, name := resp.name, ttl := "" })

/-! ### GetProfiles (media.go:15-141) -/

structure IntRectangle where
  x : Int
  y : Int
  width : Int
  height : Int
  deriving Repr, DecidableEq

structure VideoSourceConfigurationWire where
  token : String
  name : String
  useCount : Int
  sourceToken : String
  bounds : Option IntRectangle
  deriving Repr, DecidableEq

structure VideoResolution where
  width : Int
  height : Int
  deriving Repr, DecidableEq

structure VideoRateControl where
  frameRateLimit : Int
  encodingInterval : Int
  bitrateLimit : Int
  deriving Repr, DecidableEq

structure VideoEncoderConfigurationWire where
  token : String
  name : String
  useCount : Int
  encoding : String
  resolution : Option VideoResolution
  quality : Float
  rateControl : Option VideoRateControl
  deriving Repr

structure PTZConfigurationWire where
  token : String
  name : String
  useCount : Int
  nodeToken : String
  deriving Repr, DecidableEq

/-- Wire shape of one `Profiles` element of `GetProfilesResponse`. -/
structure ProfileWire where
  token : String
  name : String
  videoSourceConfiguration : Option VideoSourceConfigurationWire
  videoEncoderConfiguration : Option VideoEncoderConfigurationWire
  ptzConfiguration : Option PTZConfigurationWire
  deriving Repr

structure VideoSourceConfiguration where
  token : String
  name : String
  useCount : Int
  sourceToken : String
  bounds : Option IntRectangle
  deriving Repr, DecidableEq

structure VideoEncoderConfiguration where
  token : String
  name : String
  useCount : Int
  encoding : String
  quality : Float
  resolution : Option VideoResolution
  rateControl : Option VideoRateControl
  deriving Repr

structure PTZConfiguration where
  token : String
  name : String
  useCount : Int
  nodeToken : String
  deriving Repr, DecidableEq

/-- Public `Profile` result type. -/
structure Profile where
  token : String
  name : String
  videoSourceConfiguration : Option VideoSourceConfiguration
  videoEncoderConfiguration : Option VideoEncoderConfiguration
  ptzConfiguration : Option PTZConfiguration
  deriving Repr

/-- Per-profile mapping loop body of `GetProfiles` (media.go:84-138). -/
def mapProfileWire (p : ProfileWire) : Profile :=
  { token := p.token
    name := p.name
    videoSourceConfiguration := p.videoSourceConfiguration.map fun vsc =>
      { token := vsc.token, name := vsc.name, useCount := vsc.useCount
        sourceToken := vsc.sourceToken
        bounds := vsc.bounds.map fun b => ⟨b.x, b.y, b.width, b.height⟩ }
    videoEncoderConfiguration := p.videoEncoderConfiguration.map fun vec =>
      { token := vec.token, name := vec.name, useCount := vec.useCount
        encoding := vec.encoding, quality := vec.quality
        resolution := vec.resolution.map fun r => ⟨r.width, r.height⟩
        rateControl := vec.rateControl.map fun rc =>
          ⟨rc.frameRateLimit, rc.encodingInterval, rc.bitrateLimit⟩ }
    ptzConfiguration := p.ptzConfiguration.map fun ptz =>
      ⟨ptz.token, ptz.name, ptz.useCount, ptz.nodeToken⟩ }

/-- `Client.GetProfiles`: one `Call`; on error wrap with the operation name;
on success map each wire profile. -/
def getProfilesOp (oracle : CallOracle (List ProfileWire)) :
    StateM Nat (Except GoError (List Profile)) := do
  match ← soapCall oracle with
  | .error e => pure (.error (.wrapped "GetProfiles" e))
  | .ok profiles => pure (.ok (profiles.map mapProfileWire))

/-! ## Theorems about the operation wrappers -/

/-- C2: for each of the operation wrappers `GetRemoteUser`, `SetRemoteUser`,
`GetIPAddressFilter`, `GetDynamicDNS` and `GetProfiles`, the wrapper returns
an error if and only if the underlying SOAP `Call` returned an error, and in
the error case the returned error is exactly the underlying error wrapped
with the operation name; no error is swallowed (the underlying error is
recoverable from the result) and nothing is logged (the wrappers are pure
functions of the call outcome). -/
theorem wrapper_error_propagation
    (oR : CallOracle GetRemoteUserResponseWire) (ru : Option RemoteUser)
    (oS : CallOracle Unit) (oF : CallOracle GetIPAddressFilterResponseWire)
    (oD : CallOracle DynamicDNSInformationWire)
    (oP : CallOracle (List ProfileWire)) :
    (exceptIsError ((getRemoteUserOp oR).run 0).1 = exceptIsError (oR 0) ∧
      ∀ e, oR 0 = .error e →
        ((getRemoteUserOp oR).run 0).1 = .error (.wrapped "GetRemoteUser" e)) ∧
    (exceptIsError ((setRemoteUserOp ru oS).run 0).1 = exceptIsError (oS 0) ∧
      ∀ e, oS 0 = .error e →
        ((setRemoteUserOp ru oS).run 0).1 = .error (.wrapped "SetRemoteUser" e)) ∧
    (exceptIsError ((getIPAddressFilterOp oF).run 0).1 = exceptIsError (oF 0) ∧
      ∀ e, oF 0 = .error e →
        ((getIPAddressFilterOp oF).run 0).1 = .error (.wrapped "GetIPAddressFilter" e)) ∧
    (exceptIsError ((getDynamicDNSOp oD).run 0).1 = exceptIsError (oD 0) ∧
      ∀ e, oD 0 = .error e →
        ((getDynamicDNSOp oD).run 0).1 = .error (.wrapped "GetDynamicDNS" e)) ∧
    (exceptIsError ((getProfilesOp oP).run 0).1 = exceptIsError (oP 0) ∧
      ∀ e, oP 0 = .error e →
        ((getProfilesOp oP).run 0).1 = .error (.wrapped "GetProfiles" e)) := by
  refine ⟨⟨?_, ?_⟩, ⟨?_, ?_⟩, ⟨?_, ?_⟩, ⟨?_, ?_⟩, ⟨?_, ?_⟩⟩
  · rcases h : oR 0 with e | resp
    · simp [getRemoteUserOp, soapCall, StateT.run, bind, StateT.bind, pure,
        StateT.pure, h, exceptIsError]
    · rcases hr : resp.remoteUser with _ | u <;>
        simp [getRemoteUserOp, soapCall, StateT.run, bind, StateT.bind, pure,
          StateT.pure, h, hr, exceptIsError]
  · intro e h
    simp [getRemoteUserOp, soapCall, StateT.run, bind, StateT.bind, pure,
      StateT.pure, h]
  · rcases h : oS 0 with e | resp <;>
      simp [setRemoteUserOp, soapCall, StateT.run, bind, StateT.bind, pure,
        StateT.pure, h, exceptIsError]
  · intro e h
    simp [setRemoteUserOp, soapCall, StateT.run, bind, StateT.bind, pure,
      StateT.pure, h]
  · rcases h : oF 0 with e | resp <;>
      simp [getIPAddressFilterOp, soapCall, StateT.run, bind, StateT.bind, pure,
        StateT.pure, h, exceptIsError]
  · intro e h
    simp [getIPAddressFilterOp, soapCall, StateT.run, bind, StateT.bind, pure,
      StateT.pure, h]
  · rcases h : oD 0 with e | resp <;>
      simp [getDynamicDNSOp, soapCall, StateT.run, bind, StateT.bind, pure,
        StateT.pure, h, exceptIsError]
  · intro e h
    simp [getDynamicDNSOp, soapCall, StateT.run, bind, StateT.bind, pure,
      StateT.pure, h]
  · rcases h : oP 0 with e | resp <;>
      simp [getProfilesOp, soapCall, StateT.run, bind, StateT.bind, pure,
        StateT.pure, h, exceptIsError]
  · intro e h
    simp [getProfilesOp, soapCall, StateT.run, bind, StateT.bind, pure,
      StateT.pure, h]

/-- Witness for `wrapper_error_propagation` at concrete failing oracles. -/
theorem wrapper_error_propagation_witness :
    ((getRemoteUserOp fun _ => .error "boom").run 0).1 =
        .error (.wrapped "GetRemoteUser" "boom") ∧
    ((setRemoteUserOp none fun _ => .error "boom").run 0).1 =
        .error (.wrapped "SetRemoteUser" "boom") ∧
    ((getIPAddressFilterOp fun _ => .error "boom").run 0).1 =
        .error (.wrapped "GetIPAddressFilter" "boom") ∧
    ((getDynamicDNSOp fun _ => .error "boom").run 0).1 =
        .error (.wrapped "GetDynamicDNS" "boom") ∧
    ((getProfilesOp fun _ => .error "boom").run 0).1 =
        .error (.wrapped "GetProfiles" "boom") := by
  have h := wrapper_error_propagation (fun _ => .error "boom") none
    (fun _ => .error "boom") (fun _ => .error "boom") (fun _ => .error "boom")
    (fun _ => .error "boom")
  exact ⟨h.1.2 "boom" rfl, h.2.1.2 "boom" rfl, h.2.2.1.2 "boom" rfl,
    h.2.2.2.1.2 "boom" rfl, h.2.2.2.2.2 "boom" rfl⟩

/-- C3: each wrapper issues exactly one underlying SOAP `Call` per
invocation, for every oracle (hence for every outcome, success or failure):
the call counter after running any of the five wrappers from 0 is exactly 1. -/
theorem wrapper_exactly_one_call
    (oR : CallOracle GetRemoteUserResponseWire) (ru : Option RemoteUser)
    (oS : CallOracle Unit) (oF : CallOracle GetIPAddressFilterResponseWire)
    (oD : CallOracle DynamicDNSInformationWire)
    (oP : CallOracle (List ProfileWire)) :
    ((getRemoteUserOp oR).run 0).2 = 1 ∧
    ((setRemoteUserOp ru oS).run 0).2 = 1 ∧
    ((getIPAddressFilterOp oF).run 0).2 = 1 ∧
    ((getDynamicDNSOp oD).run 0).2 = 1 ∧
    ((getProfilesOp oP).run 0).2 = 1 := by
  refine ⟨?_, ?_, ?_, ?_, ?_⟩
  · rcases h : oR 0 with e | resp
    · simp [getRemoteUserOp, soapCall, StateT.run, bind, StateT.bind, pure,
        StateT.pure, h]
    · rcases hr : resp.remoteUser with _ | u <;>
        simp [getRemoteUserOp, soapCall, StateT.run, bind, StateT.bind, pure,
          StateT.pure, h, hr]
  · rcases h : oS 0 with e | resp <;>
      simp [setRemoteUserOp, soapCall, StateT.run, bind, StateT.bind, pure,
        StateT.pure, h]
  · rcases h : oF 0 with e | resp <;>
      simp [getIPAddressFilterOp, soapCall, StateT.run, bind, StateT.bind, pure,
        StateT.pure, h]
  · rcases h : oD 0 with e | resp <;>
      simp [getDynamicDNSOp, soapCall, StateT.run, bind, StateT.bind, pure,
        StateT.pure, h]
  · rcases h : oP 0 with e | resp <;>
      simp [getProfilesOp, soapCall, StateT.run, bind, StateT.bind, pure,
        StateT.pure, h]

/-- C9: whenever the underlying call of `GetDynamicDNS` succeeds, the result
populates `Type` and `Name` from the response and the `TTL` field is the
zero value, regardless of the TTL the device reported. -/
theorem getDynamicDNS_discards_ttl
    (oD : CallOracle DynamicDNSInformationWire)
    (resp : DynamicDNSInformationWire) (h : oD 0 = .ok resp) :
    ((getDynamicDNSOp oD).run 0).1 =
      .ok { type := resp.type, name := resp.name, ttl := "" } := by
  simp [getDynamicDNSOp, soapCall, StateT.run, bind, StateT.bind, pure,
    StateT.pure, h]

/-- Witness for `getDynamicDNS_discards_ttl`: a device reporting a non-empty
TTL still yields a result with the zero TTL. -/
theorem getDynamicDNS_discards_ttl_witness :
    ((getDynamicDNSOp fun _ =>
        .ok ⟨"ClientUpdates", "camera.example.test", "PT1H"⟩).run 0).1 =
      .ok { type := "ClientUpdates", name := "camera.example.test", ttl := "" } :=
  getDynamicDNS_discards_ttl (fun _ => .ok ⟨"ClientUpdates", "camera.example.test", "PT1H"⟩)
    ⟨"ClientUpdates", "camera.example.test", "PT1H"⟩ rfl

/-- C10: when the underlying call of `GetRemoteUser` succeeds but the
response carries no `RemoteUser` element, the wrapper returns success with
an absent result (`(nil, nil)` in Go): neither an error nor a partially
populated `RemoteUser`. -/
theorem getRemoteUser_absent_user
    (oR : CallOracle GetRemoteUserResponseWire)
    (resp : GetRemoteUserResponseWire) (h : oR 0 = .ok resp)
    (hr : resp.remoteUser = none) :
    ((getRemoteUserOp oR).run 0).1 = .ok none := by
  simp [getRemoteUserOp, soapCall, StateT.run, bind, StateT.bind, pure,
    StateT.pure, h, hr]

/-- Witness for `getRemoteUser_absent_user` at the concrete empty response. -/
theorem getRemoteUser_absent_user_witness :
    ((getRemoteUserOp fun _ => .ok ⟨none⟩).run 0).1 = .ok none :=
  getRemoteUser_absent_user (fun _ => .ok ⟨none⟩) ⟨none⟩ rfl rfl

/-! ## normalizeEndpoint (client.go:86-117) and its `net/url` dependency

`normalizeEndpoint` delegates to Go's `net/url.Parse` and `URL.String`.
Those are modelled here at the granularity the function exercises, working
over `List Char` (Go strings are byte strings; the model is exact for ASCII
inputs, and escaping of code points ≥ 256 is per-scalar rather than
per-UTF-8-byte):

* `Parse` splits off the fragment at the first `#`, rejects control
  characters in the pre-fragment text, splits the query at the first `?`,
  reads `scheme://`, takes the authority up to the next `/`, and then
  validates and decodes the components as `net/url` does: the userinfo
  (before the last `@`) must pass `validUserinfo` and is percent-decoded
  into username and password (split at the first `:`); the host is
  percent-decoded under the `encodeHost` restriction that an escape of an
  ASCII byte other than `%25` is an error, after the port check (digits
  after the last `:`; a bracketed host needs a `]`); the raw path and the
  fragment must percent-decode.
* `String` reassembles `scheme://`, the userinfo re-escaped in
  `encodeUserPassword` mode, the host re-escaped in `encodeHost` mode, the
  escaped path (`EscapedPath`: the raw path is kept verbatim when it is a
  valid encoding of its own decoding, otherwise the decoded path is
  re-escaped — a space becomes `%20`), the raw query (written with its `?`
  exactly when the input had one), and the fragment via `EscapedFragment`
  — an empty fragment (a trailing `#`) is dropped. -/

/-- The apostrophe character, written by code point. -/
def singleQuote : Char := Char.ofNat 39

/-- Control byte test of `net/url` (`stringContainsCTLByte`). -/
def isCtl (c : Char) : Bool := c.toNat < 0x20 || c.toNat == 0x7f

def containsCtl (l : List Char) : Bool := l.any isCtl

/-- Value of a hex digit, `none` for non-hex characters. -/
def hexVal (c : Char) : Option Nat :=
  if 48 ≤ c.toNat ∧ c.toNat ≤ 57 then some (c.toNat - 48)
  else if 97 ≤ c.toNat ∧ c.toNat ≤ 102 then some (c.toNat - 97 + 10)
  else if 65 ≤ c.toNat ∧ c.toNat ≤ 70 then some (c.toNat - 65 + 10)
  else none

/-- `net/url.unescape`: decode `%XX` escapes, failing on malformed ones. -/
def percentDecode : List Char → Option (List Char)
  | [] => some []
  | '%' :: rest =>
    match rest with
    | a :: b :: rest2 =>
      match hexVal a, hexVal b with
      | some ha, some hb =>
        match percentDecode rest2 with
        | some tl => some (Char.ofNat (16 * ha + hb) :: tl)
        | none => none
      | _, _ => none
    | _ => none
  | c :: rest =>
    match percentDecode rest with
    | some tl => some (c :: tl)
    | none => none

/-- `net/url.unescape` in `encodeHost` mode: additionally, a `%XX` escape of
an ASCII byte (value below `0x80`) other than `%25` is an error. -/
def hostDecode : List Char → Option (List Char)
  | [] => some []
  | '%' :: rest =>
    match rest with
    | a :: b :: rest2 =>
      match hexVal a, hexVal b with
      | some ha, some hb =>
        if 16 * ha + hb = 0x25 ∨ 128 ≤ 16 * ha + hb then
          match hostDecode rest2 with
          | some tl => some (Char.ofNat (16 * ha + hb) :: tl)
          | none => none
        else none
      | _, _ => none
    | _ => none
  | c :: rest =>
    match hostDecode rest with
    | some tl => some (c :: tl)
    | none => none

/-- ASCII letter or digit. -/
def isURLAlphanum (c : Char) : Bool :=
  (48 ≤ c.toNat && c.toNat ≤ 57) || (65 ≤ c.toNat && c.toNat ≤ 90) ||
    (97 ≤ c.toNat && c.toNat ≤ 122)

/-- `net/url.shouldEscape` in `encodePath` mode: keep alphanumerics,
`-_.~` and the sub-delimiters `$&+,/:;=@`; escape everything else
(including `?`). -/
def shouldEscapePath (c : Char) : Bool :=
  if isURLAlphanum c then false
  else if ['-', '_', '.', '~'].contains c then false
  else if ['$', '&', '+', ',', '/', ':', ';', '=', '@'].contains c then false
  else true

/-- `net/url.shouldEscape` in `encodeFragment` mode: keep alphanumerics,
`-_.~`, all of `$&+,/:;=?@` and additionally `!()*`. -/
def shouldEscapeFragment (c : Char) : Bool :=
  if isURLAlphanum c then false
  else if ['-', '_', '.', '~'].contains c then false
  else if ['$', '&', '+', ',', '/', ':', ';', '=', '?', '@'].contains c then false
  else if ['!', '(', ')', '*'].contains c then false
  else true

/-- `net/url.shouldEscape` in `encodeUserPassword` mode: of the
sub-delimiter set `$&+,/:;=?@`, exactly `@ / ? :` are escaped. -/
def shouldEscapeUserPassword (c : Char) : Bool :=
  if isURLAlphanum c then false
  else if ['-', '_', '.', '~'].contains c then false
  else if ['$', '&', '+', ',', '/', ':', ';', '=', '?', '@'].contains c then
    ['@', '/', '?', ':'].contains c
  else true

/-- `net/url.shouldEscape` in `encodeHost` mode: the host may additionally
carry `!$&'()*+,;=:[]<>"` verbatim. -/
def shouldEscapeHost (c : Char) : Bool :=
  if isURLAlphanum c then false
  else if ['!', '$', '&', '(', ')', '*', '+', ',', ';', '=', ':', '[', ']',
      '<', '>', '"'].contains c || c = singleQuote then false
  else if ['-', '_', '.', '~'].contains c then false
  else true

/-- Upper-case hex digit of a value below 16. -/
def upperHexDigit (n : Nat) : Char :=
  if n < 10 then Char.ofNat (48 + n) else Char.ofNat (55 + n)

/-- `net/url.escape`: percent-escape the characters selected by `sh`. -/
def percentEscape (sh : Char → Bool) : List Char → List Char
  | [] => []
  | c :: rest =>
    if sh c then
      '%' :: upperHexDigit (c.toNat / 16 % 16) :: upperHexDigit (c.toNat % 16) ::
        percentEscape sh rest
    else c :: percentEscape sh rest

/-- `net/url.validEncoded` in `encodePath` mode: the characters a raw path
may carry verbatim. -/
def validEncodedPath : List Char → Bool
  | [] => true
  | c :: rest =>
    (if ['!', '$', '&', '(', ')', '*', '+', ',', ';', '=', ':', '@', '[',
          ']', '%'].contains c || c = singleQuote then true
     else !shouldEscapePath c) && validEncodedPath rest

/-- `net/url.validEncoded` in `encodeFragment` mode. -/
def validEncodedFragment : List Char → Bool
  | [] => true
  | c :: rest =>
    (if ['!', '$', '&', '(', ')', '*', '+', ',', ';', '=', ':', '@', '[',
          ']', '%'].contains c || c = singleQuote then true
     else !shouldEscapeFragment c) && validEncodedFragment rest

/-- `URL.EscapedPath`: keep the raw path verbatim when it is a valid
encoding of its own decoding, otherwise re-escape the decoded path. -/
def escapedPathOf (raw : List Char) : List Char :=
  if !raw.isEmpty && validEncodedPath raw then raw
  else
    match percentDecode raw with
    | some p => percentEscape shouldEscapePath p
    | none => raw

/-- `URL.EscapedFragment`: keep the raw fragment verbatim when it is a
valid encoding of its own decoding, otherwise re-escape the decoded
fragment. -/
def escapedFragmentOf (raw : List Char) : List Char :=
  if !raw.isEmpty && validEncodedFragment raw then raw
  else
    match percentDecode raw with
    | some p => percentEscape shouldEscapeFragment p
    | none => raw

/-- `net/url.validUserinfo`: letters, digits and
`- . _ : ~ ! $ & ' ( ) * + , ; = % @`. -/
def validUserinfoChar (c : Char) : Bool :=
  isURLAlphanum c ||
    ['-', '.', '_', ':', '~', '!', '$', '&', '(', ')', '*', '+', ',', ';',
      '=', '%', '@'].contains c || c = singleQuote

def validUserinfo (l : List Char) : Bool := l.all validUserinfoChar

/-- Split at the first occurrence of `c`: the prefix before it and, when
present, the remainder after it. -/
def splitFirst (c : Char) (l : List Char) : List Char × Option (List Char) :=
  match l.dropWhile (fun x => x ≠ c) with
  | [] => (l.takeWhile (fun x => x ≠ c), none)
  | _ :: tl => (l.takeWhile (fun x => x ≠ c), some tl)

/-- The contents of an optional suffix. -/
def optList : Option (List Char) → List Char
  | none => []
  | some t => t

/-- Read `scheme://` off the front: the scheme before the first `:`, which
must be followed by `//`. -/
def splitSchemeSlashSlash (l : List Char) : Option (List Char × List Char) :=
  match l.dropWhile (fun x => x ≠ ':') with
  | ':' :: '/' :: '/' :: rest => some (l.takeWhile (fun x => x ≠ ':'), rest)
  | _ => none

/-- The host[:port] portion of an authority: the text after the last `@`. -/
def stripUserinfo (auth : List Char) : List Char :=
  (auth.reverse.takeWhile (fun x => x ≠ '@')).reverse

/-- `net/url.parseHost` port validation: a bracketed host needs a `]` and
an optional `:` with digits after it; otherwise the text after the last `:`
must be all digits. -/
def validHostPort (host : List Char) : Bool :=
  match host with
  | '[' :: _ =>
    if host.contains ']' then
      match (host.reverse.takeWhile (fun x => x ≠ ']')).reverse with
      | [] => true
      | ':' :: ds => ds.all (·.isDigit)
      | _ => false
    else false
  | _ =>
    if host.contains ':' then
      ((host.reverse.takeWhile (fun x => x ≠ ':')).reverse).all (·.isDigit)
    else true

/-- `net/url.parseHost`: port check, then `encodeHost`-mode decoding. -/
def parseHost (hostport : List Char) : Option (List Char) :=
  if validHostPort hostport then hostDecode hostport else none

/-- `net/url.Userinfo`: decoded username and password (`User` /
`UserPassword`). -/
structure GoUserinfo where
  username : List Char
  password : List Char
  passwordSet : Bool
  deriving Repr, DecidableEq

/-- `net/url.parseAuthority`: the userinfo before the last `@` (validated
by `validUserinfo`, split at the first `:`, each part percent-decoded) and
the decoded host. -/
def parseAuthority (auth : List Char) : Option (Option GoUserinfo × List Char) :=
  if auth.contains '@' then
    match parseHost (stripUserinfo auth) with
    | none => none
    | some h =>
      if validUserinfo (auth.take (auth.length - (stripUserinfo auth).length - 1)) then
        match (auth.take (auth.length - (stripUserinfo auth).length - 1)).dropWhile
            (fun x => x ≠ ':') with
        | ':' :: pw =>
          match percentDecode ((auth.take (auth.length - (stripUserinfo auth).length - 1)).takeWhile
              (fun x => x ≠ ':')), percentDecode pw with
          | some du, some dp => some (some ⟨du, dp, true⟩, h)
          | _, _ => none
        | _ =>
          match percentDecode (auth.take (auth.length - (stripUserinfo auth).length - 1)) with
          | some du => some (some ⟨du, [], false⟩, h)
          | none => none
      else none
  else
    match parseHost auth with
    | none => none
    | some h => some (none, h)

/-- Parsed URL: scheme, decoded userinfo, decoded host[:port], raw path,
query presence and raw query text, raw fragment (`[]` both for no `#` and
for an empty fragment, which `URL.String` drops either way). -/
structure GoURL where
  scheme : List Char
  user : Option GoUserinfo
  host : List Char
  rawPath : List Char
  hasQuery : Bool
  rawQuery : List Char
  rawFragment : List Char
  deriving Repr, DecidableEq

/-- Decoded path (`URL.Path`); defined whenever parsing succeeded. -/
def GoURL.decodedPath (u : GoURL) : Option (List Char) := percentDecode u.rawPath

/-- `Userinfo.String`: username and, when set, `:` and the password, each
re-escaped in `encodeUserPassword` mode. -/
def GoUserinfo.toChars (ui : GoUserinfo) : List Char :=
  percentEscape shouldEscapeUserPassword ui.username ++
    (if ui.passwordSet then
      ':' :: percentEscape shouldEscapeUserPassword ui.password
     else [])

/-- `URL.String`: scheme, re-escaped userinfo, re-escaped host, escaped
path, raw query behind its `?` when present, and the escaped fragment
behind its `#` unless the fragment is empty. -/
def GoURL.toChars (u : GoURL) : List Char :=
  u.scheme ++ ':' :: '/' :: '/' ::
    ((match u.user with
      | none => []
      | some ui => ui.toChars ++ ['@']) ++
      percentEscape shouldEscapeHost u.host ++ escapedPathOf u.rawPath) ++
    (if u.hasQuery then '?' :: u.rawQuery else []) ++
    (if u.rawFragment.isEmpty then [] else '#' :: escapedFragmentOf u.rawFragment)

/-- Model of `net/url.Parse` for `scheme://`-shaped input: fragment off at
the first `#`, control-character check, query off at the first `?`,
`scheme://`, authority up to the next `/` parsed by `parseAuthority`, and
the path and fragment must percent-decode. -/
def url_Parse (cs : List Char) : Option GoURL :=
  if containsCtl (splitFirst '#' cs).1 then none
  else
    match splitSchemeSlashSlash (splitFirst '?' (splitFirst '#' cs).1).1 with
    | none => none
    | some sr =>
      match parseAuthority (sr.2.takeWhile (fun x => x ≠ '/')) with
      | none => none
      | some uh =>
        if (percentDecode (sr.2.dropWhile (fun x => x ≠ '/'))).isSome &&
            (percentDecode (optList (splitFirst '#' cs).2)).isSome then
          some ⟨sr.1, uh.1, uh.2, sr.2.dropWhile (fun x => x ≠ '/'),
                ((splitFirst '?' (splitFirst '#' cs).1).2).isSome,
                optList (splitFirst '?' (splitFirst '#' cs).1).2,
                optList (splitFirst '#' cs).2⟩
        else none

/-- `strings.HasPrefix`. -/
def listStartsWith : List Char → List Char → Bool
  | [], _ => true
  | _ :: _, [] => false
  | p :: ps, c :: cs => p == c && listStartsWith ps cs

/-- `strings.HasPrefix(endpoint, "http://") || strings.HasPrefix(endpoint,
"https://")` (client.go:88). -/
def hasHTTPScheme (s : String) : Bool :=
  listStartsWith "http://".toList s.toList ||
    listStartsWith "https://".toList s.toList

/-- `fullURL := "http://" + endpoint + "/onvif/device_service"`
(client.go:106). -/
def deviceServiceURL (endpoint : String) : String :=
  "http://" ++ endpoint ++ "/onvif/device_service"

/-- Is the decoded path empty or `"/"` (client.go:98)? -/
def GoURL.pathTrivial (u : GoURL) : Bool :=
  match u.decodedPath with
  | some p => p.isEmpty || p = ['/']
  | none => false

/-- `normalizeEndpoint` (client.go:86-117). -/
def normalizeEndpoint (endpoint : String) : Except String String :=
  if hasHTTPScheme endpoint then
    match url_Parse endpoint.toList with
    | none => .error "parse error"
    | some u =>
      if u.host.isEmpty then .error "URL missing host"
      else if u.pathTrivial then
        .ok ({ u with rawPath := "/onvif/device_service".toList : GoURL }).toChars.asString
      else .ok u.toChars.asString
  else
    match url_Parse (deviceServiceURL endpoint).toList with
    | none => .error "invalid IP address or hostname"
    | some u =>
      if u.host.isEmpty then .error "invalid endpoint format"
      else .ok (deviceServiceURL endpoint)

/-- `NewClient` (client.go:58-83), without functional options: normalize the
endpoint, failing on a normalization error, and store it in a fresh client. -/
def NewClient (endpoint : String) : Except String Client :=
  match normalizeEndpoint endpoint with
  | .error e => .error ("invalid endpoint: " ++ e)
  | .ok ne => .ok ⟨ne, "", "", "", "", "", ""⟩

/-! ## Theorems about normalizeEndpoint -/

deriving instance DecidableEq for Except

/-- Truncate to 32 bits. -/
def w32 (n : Nat) : Nat := n % 4294967296

/-- 32-bit left rotation of a value below `2^32`. -/
def rotl (n s : Nat) : Nat := (n * 2 ^ s) % 4294967296 + n / 2 ^ (32 - s)

/-- SHA-1 padding: `0x80`, zeros to 56 mod 64, and the 64-bit big-endian
bit length. -/
def sha1Pad (msg : List Nat) : List Nat :=
  let len := msg.length
  let bitLen := len * 8
  let z := (119 - len % 64) % 64
  msg ++ 0x80 :: List.replicate z 0 ++
    [bitLen / 2 ^ 56 % 256, bitLen / 2 ^ 48 % 256, bitLen / 2 ^ 40 % 256,
     bitLen / 2 ^ 32 % 256, bitLen / 2 ^ 24 % 256, bitLen / 2 ^ 16 % 256,
     bitLen / 2 ^ 8 % 256, bitLen % 256]

/-- Big-endian 32-bit words from bytes. -/
def bytesToWords : List Nat → List Nat
  | a :: b :: c :: d :: rest =>
    (a * 2 ^ 24 + b * 2 ^ 16 + c * 2 ^ 8 + d) :: bytesToWords rest
  | _ => []

/-- Append the next word of the SHA-1 message schedule. -/
def sha1ExtendStep (w : List Nat) : List Nat :=
  w ++ [rotl ((w.getD (w.length - 3) 0) ^^^ (w.getD (w.length - 8) 0) ^^^
    (w.getD (w.length - 14) 0) ^^^ (w.getD (w.length - 16) 0)) 1]

/-- Iterate the schedule extension `n` times. -/
def sha1ExtendN : Nat → List Nat → List Nat
  | 0, w => w
  | n + 1, w => sha1ExtendN n (sha1ExtendStep w)

/-- The 80 SHA-1 rounds over the schedule words, threading `(a,b,c,d,e)`. -/
def sha1Rounds : List Nat → Nat → Nat × Nat × Nat × Nat × Nat →
    Nat × Nat × Nat × Nat × Nat
  | [], _, st => st
  | wi :: rest, i, (a, b, c, d, e) =>
    let f :=
      if i < 20 then (b &&& c) ||| ((4294967295 - b) &&& d)
      else if i < 40 then b ^^^ c ^^^ d
      else if i < 60 then (b &&& c) ||| (b &&& d) ||| (c &&& d)
      else b ^^^ c ^^^ d
    let k :=
      if i < 20 then 0x5A827999
      else if i < 40 then 0x6ED9EBA1
      else if i < 60 then 0x8F1BBCDC
      else 0xCA62C1D6
    sha1Rounds rest (i + 1) (w32 (rotl a 5 + f + e + k + wi), a, rotl b 30, c, d)

/-- Split a byte list into 64-byte chunks (structurally, via an
accumulator). -/
def chunks64Aux : List Nat → List Nat → List (List Nat)
  | [], acc => if acc.isEmpty then [] else [acc.reverse]
  | x :: xs, acc =>
    if acc.length == 63 then (x :: acc).reverse :: chunks64Aux xs []
    else chunks64Aux xs (x :: acc)

/-- One SHA-1 block compression. -/
def sha1Compress (h : Nat × Nat × Nat × Nat × Nat) (block : List Nat) :
    Nat × Nat × Nat × Nat × Nat :=
  let w := sha1ExtendN 64 (bytesToWords block)
  match h, sha1Rounds w 0 h with
  | (h0, h1, h2, h3, h4), (a, b, c, d, e) =>
    (w32 (h0 + a), w32 (h1 + b), w32 (h2 + c), w32 (h3 + d), w32 (h4 + e))

/-- Big-endian bytes of a 32-bit word. -/
def wordBytes (w : Nat) : List Nat :=
  [w / 2 ^ 24 % 256, w / 2 ^ 16 % 256, w / 2 ^ 8 % 256, w % 256]

/-- SHA-1 of a byte string. -/
def sha1 (msg : List Nat) : List Nat :=
  match (chunks64Aux (sha1Pad msg) []).foldl sha1Compress
      (0x67452301, 0xEFCDAB89, 0x98BADCFE, 0x10325476, 0xC3D2E1F0) with
  | (h0, h1, h2, h3, h4) =>
    wordBytes h0 ++ wordBytes h1 ++ wordBytes h2 ++ wordBytes h3 ++ wordBytes h4

/-- Standard base64 alphabet. -/
def base64Char (n : Nat) : Char :=
  if n < 26 then Char.ofNat (65 + n)
  else if n < 52 then Char.ofNat (97 + (n - 26))
  else if n < 62 then Char.ofNat (48 + (n - 52))
  else if n = 62 then '+' else '/'

/-- Standard base64 with `=` padding. -/
def base64Encode : List Nat → List Char
  | [] => []
  | [a] => [base64Char (a / 4), base64Char (a % 4 * 16), '=', '=']
  | [a, b] =>
    [base64Char (a / 4), base64Char (a % 4 * 16 + b / 16),
     base64Char (b % 16 * 4), '=']
  | a :: b :: c :: rest =>
    base64Char (a / 4) :: base64Char (a % 4 * 16 + b / 16) ::
      base64Char (b % 16 * 4 + c / 64) :: base64Char (c % 64) :: base64Encode rest

/-- Modelled from the spec: the WS-Security UsernameToken password digest of
`internal/soap` (absent from this checkout), `base64(SHA1(nonce || created
|| password))`, the three byte strings concatenated in that order with no
separators. -/
def passwordDigest (nonce created password : List Nat) : String :=
  (base64Encode (sha1 (nonce ++ created ++ password))).asString

/-- ASCII bytes of a string. -/
def asciiBytes (s : String) : List Nat := s.toList.map Char.toNat

/-- C5: the digest is `base64(SHA1(nonce ++ created ++ password))` in that
exact order with no separators, hence a deterministic function of the
triple; the underlying primitives reproduce their published test vectors
(`SHA1("abc")`, `SHA1("")`), and the digest of a triple concatenating to
`"abc"` is the base64 of the published SHA-1 digest of `"abc"`. -/
theorem passwordDigest_spec :
    (∀ nonce created password : List Nat,
      passwordDigest nonce created password =
        (base64Encode (sha1 (nonce ++ created ++ password))).asString) ∧
    sha1 (asciiBytes "abc") =
      [0xa9, 0x99, 0x3e, 0x36, 0x47, 0x06, 0x81, 0x6a, 0xba, 0x3e,
       0x25, 0x71, 0x78, 0x50, 0xc2, 0x6c, 0x9c, 0xd0, 0xd8, 0x9d] ∧
    sha1 [] =
      [0xda, 0x39, 0xa3, 0xee, 0x5e, 0x6b, 0x4b, 0x0d, 0x32, 0x55,
       0xbf, 0xef, 0x95, 0x60, 0x18, 0x90, 0xaf, 0xd8, 0x07, 0x09] ∧
    passwordDigest (asciiBytes "a") (asciiBytes "b") (asciiBytes "c") =
      "qZk+NkcGgWq6PiVxeFDCbJzQ2J0=" :=
  ⟨fun _ _ _ => rfl, by decide, by decide, by decide⟩

/-! ## Envelope decoding (internal/soap, modelled from the spec)

The Envelope Codec of `internal/soap` is not part of this checkout; its
decode side is modelled from the spec: decoding first inspects the body's
root element; a Fault element stops decoding and yields `FaultError{code,
reason}` regardless of the caller's requested target (including a nil
target), even when the HTTP status of the exchange was 2xx; otherwise the
body is deserialized into the target, a nil target accepting any body. -/

/-- Modelled from the spec: the root element of a decoded SOAP body —
either the protocol's Fault element (with code and reason) or some other
payload element (its raw content). -/
inductive BodyRoot where
  | fault (code reason : String)
  | payload (content : String)
  deriving Repr, DecidableEq

/-- A caller-requested response target: `none` is a nil target
(fire-and-forget); `some deser` deserializes raw content into `ρ`,
`none` meaning a deserialization failure. -/
abbrev ResponseTarget (ρ : Type) := Option (String → Option ρ)

/-- Decode outcome: the spec's `FaultError | DecodeError | nil`, a `nil`
error carrying the decoded value when a target was supplied. -/
inductive DecodeResult (ρ : Type) where
  | faultError (code reason : String)
  | decodeError
  | ok (value : Option ρ)
  deriving Repr

/-- Modelled from the spec: `decode(envelopeBytes, responseTarget)`. -/
def decode {ρ : Type} (body : BodyRoot) (target : ResponseTarget ρ) :
    DecodeResult ρ :=
  match body with
  | .fault code reason => .faultError code reason
  | .payload content =>
    match target with
    | none => .ok none
    | some deser =>
      match deser content with
      | some v => .ok (some v)
      | none => .decodeError

/-- Modelled from the spec: the transport classifies an exchange by
decoding the body regardless of the HTTP status — a 2xx status carrying a
Fault body is still a protocol failure. -/
def classifyExchange {ρ : Type} (status : Nat) (body : BodyRoot)
    (target : ResponseTarget ρ) : DecodeResult ρ :=
  decode body target

/-- C6: a Fault body decodes to `FaultError` with the fault's code and
reason for every requested target (nil included); the result does not
depend on the target (so the body is never deserialized into it, even by a
deserializer that would succeed), and the classification is the same for
every HTTP status, 2xx included. -/
theorem decode_fault_overrides_target {ρ : Type} (code reason : String)
    (target : ResponseTarget ρ) (status : Nat) :
    decode (.fault code reason) target = .faultError code reason ∧
    (∀ target2 : ResponseTarget ρ,
      decode (.fault code reason) target = decode (.fault code reason) target2) ∧
    classifyExchange status (.fault code reason) target =
      .faultError code reason ∧
    (∀ status2, classifyExchange status (.fault code reason) target =
      classifyExchange status2 (.fault code reason) target) :=
  ⟨rfl, fun _ => rfl, rfl, fun _ => rfl⟩

/-! ## Discovery merge (discovery engine, modelled from the spec)

The WS-Discovery engine's Go source is not part of this checkout; the
`MERGE` stage is modelled from the spec: all Probe Match replies collected
on all interfaces are merged into one Device set keyed by endpoint
reference, taking the first-seen record per key. -/

/-- Modelled from the spec: a discovered Device; identity is the endpoint
reference. -/
structure Device where
  endpointReference : String
  name : String
  types : List String
  scopes : List String
  xAddrs : List String
  deriving Repr, DecidableEq

/-- Modelled from the spec: merge the concatenated reply streams into one
set keyed by endpoint reference, keeping the first-seen record per key. -/
def mergeDevices : List Device → List Device
  | [] => []
  | d :: rest =>
    d :: mergeDevices
      (rest.filter fun x => !(x.endpointReference == d.endpointReference))
  termination_by l => l.length
  decreasing_by
    simp only [List.length_cons]
    exact Nat.lt_succ_of_le (List.length_filter_le _ _)

/-- `find?` is unaffected by filtering out elements the predicate cannot
match. -/
theorem find?_filter_of_imp {α : Type} (p q : α → Bool) (l : List α)
    (h : ∀ x, p x = true → q x = true) :
    (l.filter q).find? p = l.find? p := by
  induction l with
  | nil => rfl
  | cons a rest ih =>
    by_cases hq : q a = true
    · rw [List.filter_cons_of_pos hq]
      by_cases hp : p a = true
      · rw [List.find?_cons_of_pos _ hp, List.find?_cons_of_pos _ hp]
      · rw [List.find?_cons_of_neg _ (by simpa using hp),
          List.find?_cons_of_neg _ (by simpa using hp)]
        exact ih
    · have hp : ¬ p a = true := fun hpa => hq (h a hpa)
      rw [List.filter_cons_of_neg (by simpa using hq),
        List.find?_cons_of_neg _ (by simpa using hp)]
      exact ih

/-- Membership in the merge is exactly being the first-seen record for
one's endpoint reference. -/
theorem mem_mergeDevices_iff (l : List Device) (d : Device) :
    d ∈ mergeDevices l ↔
      l.find? (fun x => x.endpointReference == d.endpointReference) = some d := by
  induction l using mergeDevices.induct with
  | case1 => simp [mergeDevices]
  | case2 a rest ih =>
    rw [mergeDevices]
    by_cases heq : (a.endpointReference == d.endpointReference) = true
    · rw [List.find?_cons_of_pos
        (p := fun x : Device => x.endpointReference == d.endpointReference) _ heq]
      constructor
      · intro hmem
        rcases List.mem_cons.mp hmem with rfl | hmem2
        · rfl
        · exfalso
          have hfind := ih.mp hmem2
          have hmemf := List.mem_of_find?_eq_some hfind
          have hflt := List.of_mem_filter hmemf
          have heq2 : a.endpointReference = d.endpointReference := by
            simpa using heq
          rw [heq2] at hflt
          simp at hflt
      · intro hsome
        injection hsome with h2
        subst h2
        exact List.mem_cons_self _ _
    · rw [List.find?_cons_of_neg
        (p := fun x : Device => x.endpointReference == d.endpointReference) _
        (by simpa using heq)]
      rw [List.mem_cons]
      have hff := find?_filter_of_imp
        (fun x => x.endpointReference == d.endpointReference)
        (fun x => !(x.endpointReference == a.endpointReference)) rest ?_
      · rw [ih, hff]
        constructor
        · rintro (rfl | hm)
          · simp at heq
          · exact hm
        · intro hm
          exact Or.inr hm
      · intro x hx
        have hxd : x.endpointReference = d.endpointReference := by simpa using hx
        have hxa : ¬ x.endpointReference = a.endpointReference := by
          intro hxa2
          exact heq (by rw [← hxa2, hxd]; simp)
        simpa using hxa

/-- Every element of the merge comes from the input list. -/
theorem mergeDevices_subset (l : List Device) (d : Device)
    (h : d ∈ mergeDevices l) : d ∈ l :=
  List.mem_of_find?_eq_some ((mem_mergeDevices_iff l d).mp h)

/-- The merge has pairwise-distinct endpoint references. -/
theorem mergeDevices_pairwise (l : List Device) :
    (mergeDevices l).Pairwise
      (fun a b => a.endpointReference ≠ b.endpointReference) := by
  induction l using mergeDevices.induct with
  | case1 => simp [mergeDevices]
  | case2 a rest ih =>
    rw [mergeDevices]
    refine List.Pairwise.cons ?_ ih
    intro b hb habs
    have hbmem := mergeDevices_subset _ b hb
    have := List.of_mem_filter hbmem
    rw [← habs] at this
    simp at this

/-- Every endpoint reference of the input is represented in the merge. -/
theorem mergeDevices_covers (l : List Device) (d : Device) (h : d ∈ l) :
    ∃ e ∈ mergeDevices l, e.endpointReference = d.endpointReference := by
  induction l using mergeDevices.induct with
  | case1 => simp at h
  | case2 a rest ih =>
    rw [mergeDevices]
    rcases List.mem_cons.mp h with rfl | hrest
    · exact ⟨_, List.mem_cons_self _ _, rfl⟩
    · by_cases heq : d.endpointReference = a.endpointReference
      · exact ⟨a, List.mem_cons_self a _, heq.symm⟩
      · have hdm : d ∈ rest.filter
            (fun x => !(x.endpointReference == a.endpointReference)) :=
          List.mem_filter.mpr ⟨hrest, by simpa using heq⟩
        obtain ⟨e, he, hee⟩ := ih hdm
        exact ⟨e, List.mem_cons_of_mem a he, hee⟩

/-- Concrete device X, replying on interface A. -/
def devX : Device :=
  ⟨"urn:uuid:dev-x", "X", ["NetworkVideoTransmitter"],
   ["onvif://www.onvif.org/name/X"], ["http://10.0.0.10/onvif/device_service"]⟩

/-- Concrete device Y as first seen on interface A. -/
def devY : Device :=
  ⟨"urn:uuid:dev-y", "Y", ["NetworkVideoTransmitter"],
   ["onvif://www.onvif.org/name/Y"], ["http://10.0.0.11/onvif/device_service"]⟩

/-- Device Y's reply as collected on interface B: same endpoint reference,
different (interface-B) xAddrs. -/
def devYB : Device :=
  ⟨"urn:uuid:dev-y", "Y", ["NetworkVideoTransmitter"],
   ["onvif://www.onvif.org/name/Y"], ["http://192.168.0.11/onvif/device_service"]⟩

/-- Concrete device Z, replying on interface B. -/
def devZ : Device :=
  ⟨"urn:uuid:dev-z", "Z", ["NetworkVideoTransmitter"],
   ["onvif://www.onvif.org/name/Z"], ["http://192.168.0.12/onvif/device_service"]⟩

/-- C7: the merged device set has exactly one entry per distinct endpoint
reference among all replies (pairwise-distinct references, every reply's
reference represented), each entry being the first-seen record for its
reference; in particular interface A's replies `{X, Y}` and interface B's
replies `{Y', Z}` (`Y'` sharing Y's endpoint reference but carrying
interface-B xAddrs) merge to exactly `{X, Y, Z}` with Y's first-seen
xAddrs. -/
theorem discover_merge_dedup (replies : List Device) :
    ((mergeDevices replies).Pairwise
      fun a b => a.endpointReference ≠ b.endpointReference) ∧
    (∀ d, d ∈ mergeDevices replies ↔
      replies.find? (fun x => x.endpointReference == d.endpointReference) =
        some d) ∧
    (∀ d ∈ replies, ∃ e ∈ mergeDevices replies,
      e.endpointReference = d.endpointReference) ∧
    mergeDevices ([devX, devY] ++ [devYB, devZ]) = [devX, devY, devZ] :=
  ⟨mergeDevices_pairwise replies, fun d => mem_mergeDevices_iff replies d,
   fun d hd => mergeDevices_covers replies d hd, by
    simp [mergeDevices.eq_def, devX, devY, devYB, devZ]⟩

/-- Witness for `discover_merge_dedup` at the concrete two-interface reply
stream: Y's first-seen record is in the merge and Y's second sighting is
represented by an entry with its endpoint reference. -/
theorem discover_merge_dedup_witness :
    devY ∈ mergeDevices [devX, devY, devYB, devZ] ∧
    (∃ e ∈ mergeDevices [devX, devY, devYB, devZ],
      e.endpointReference = devYB.endpointReference) :=
  ⟨((discover_merge_dedup [devX, devY, devYB, devZ]).2.1 devY).mpr (by decide),
   (discover_merge_dedup [devX, devY, devYB, devZ]).2.2.1 devYB (by decide)⟩

/-! ## Credential snapshot consistency under the RWMutex (client.go, C1)

`SetCredentials` writes both fields inside `mu.Lock()`/`mu.Unlock()`;
`GetCredentials` reads both inside `mu.RLock()`/`mu.RUnlock()`
(client.go:149-162), and `newSOAPClient` (device_security.go:64-68) passes
the returned snapshot by value into `soap.NewClient`.  The interleaving of
one in-flight operation's credential read with any number of concurrent
`SetCredentials` writers is modelled as a small-step system: each writer
proceeds `idle → locked → wroteU → wroteP → done` (acquire the write lock,
write username, write password, release), the reader proceeds `idle →
locked → readU → readP → done` (acquire the read lock, read username into
its snapshot, read password, release); acquisition guards encode
`sync.RWMutex` — the write lock excludes writers and readers, the read
lock excludes writers. -/

inductive WPhase where
  | idle
  | locked
  | wroteU
  | wroteP
  | done
  deriving Repr, DecidableEq

/-- A `SetCredentials(newU, newP)` call and its progress. -/
structure WriterState where
  newU : String
  newP : String
  phase : WPhase
  deriving Repr, DecidableEq

inductive RPhase where
  | idle
  | locked
  | readU
  | readP
  | done
  deriving Repr, DecidableEq

/-- Global state: the client's credential fields, the writers, and the
in-flight operation's read progress and snapshot registers. -/
structure SysState where
  username : String
  password : String
  writers : List WriterState
  rphase : RPhase
  regU : String
  regP : String
  deriving Repr, DecidableEq

/-- Does a writer phase hold the write lock? -/
def wHolds : WPhase → Bool
  | .locked => true
  | .wroteU => true
  | .wroteP => true
  | _ => false

/-- Does writer `i` of a writer list hold the write lock? -/
def writerHoldsL (ws : List WriterState) (i : Nat) : Bool :=
  match ws[i]? with
  | some w => wHolds w.phase
  | none => false

/-- Does writer `i` hold the write lock in `s`? -/
def writerHolds (s : SysState) (i : Nat) : Bool := writerHoldsL s.writers i

/-- Does the reader phase hold the read lock? -/
def rHolds : RPhase → Bool
  | .locked => true
  | .readU => true
  | .readP => true
  | _ => false

/-- One interleaving step. -/
inductive Step : SysState → SysState → Prop where
  | wAcquire {s : SysState} (i : Nat) (w : WriterState)
      (hw : s.writers[i]? = some w) (hph : w.phase = .idle)
      (hnoW : ∀ j, writerHolds s j = false) (hnoR : rHolds s.rphase = false) :
      Step s { s with writers := s.writers.set i ⟨w.newU, w.newP, .locked⟩ }
  | wWriteU {s : SysState} (i : Nat) (w : WriterState)
      (hw : s.writers[i]? = some w) (hph : w.phase = .locked) :
      Step s { s with username := w.newU,
                      writers := s.writers.set i ⟨w.newU, w.newP, .wroteU⟩ }
  | wWriteP {s : SysState} (i : Nat) (w : WriterState)
      (hw : s.writers[i]? = some w) (hph : w.phase = .wroteU) :
      Step s { s with password := w.newP,
                      writers := s.writers.set i ⟨w.newU, w.newP, .wroteP⟩ }
  | wRelease {s : SysState} (i : Nat) (w : WriterState)
      (hw : s.writers[i]? = some w) (hph : w.phase = .wroteP) :
      Step s { s with writers := s.writers.set i ⟨w.newU, w.newP, .done⟩ }
  | rAcquire {s : SysState} (hph : s.rphase = .idle)
      (hnoW : ∀ j, writerHolds s j = false) :
      Step s { s with rphase := .locked }
  | rReadU {s : SysState} (hph : s.rphase = .locked) :
      Step s { s with rphase := .readU, regU := s.username }
  | rReadP {s : SysState} (hph : s.rphase = .readU) :
      Step s { s with rphase := .readP, regP := s.password }
  | rRelease {s : SysState} (hph : s.rphase = .readP) :
      Step s { s with rphase := .done }

/-- Reachability from an initial state. -/
inductive Reachable (s0 : SysState) : SysState → Prop where
  | refl : Reachable s0 s0
  | step {s s' : SysState} : Reachable s0 s → Step s s' → Reachable s0 s'

/-- Initial state: credentials `(u0, p0)`, one pending `SetCredentials`
per pair in `wl`, the in-flight operation not yet started. -/
def initState (u0 p0 : String) (wl : List (String × String)) : SysState :=
  ⟨u0, p0, wl.map (fun q => ⟨q.1, q.2, .idle⟩), .idle, "", ""⟩

/-- The credential pair a writer will install. -/
def writerPair (w : WriterState) : String × String := (w.newU, w.newP)

/-- A consistent ("unmixed") pair: the initial pair or the full pair of a
single `SetCredentials` call. -/
def GoodPair (u0 p0 : String) (wl : List (String × String))
    (q : String × String) : Prop :=
  q = (u0, p0) ∨ q ∈ wl

/-- No writer is between its two field writes. -/
def noWroteU (ws : List WriterState) : Prop :=
  ∀ (i : Nat) (w : WriterState), ws[i]? = some w → w.phase ≠ WPhase.wroteU

/-- The inductive invariant: writer pairs are constant; the write lock is
exclusive and excludes the read lock; whenever no writer is mid-write the
credential fields form a good pair; a writer between its writes has already
installed its username; the reader's partial and complete snapshots are
consistent with what it read. -/
structure Inv (u0 p0 : String) (wl : List (String × String))
    (s : SysState) : Prop where
  pairs : s.writers.map writerPair = wl
  excl : ∀ i j, writerHolds s i = true → writerHolds s j = true → i = j
  sharedExcl : rHolds s.rphase = true → ∀ i, writerHolds s i = false
  goodNow : noWroteU s.writers → GoodPair u0 p0 wl (s.username, s.password)
  wroteUTrack : ∀ (i : Nat) (w : WriterState), s.writers[i]? = some w →
    w.phase = WPhase.wroteU → s.username = w.newU
  readUTrack : s.rphase = RPhase.readU → s.regU = s.username
  snapGood : s.rphase = RPhase.readP ∨ s.rphase = RPhase.done →
    GoodPair u0 p0 wl (s.regU, s.regP)

theorem writerHoldsL_of_phase {ws : List WriterState} {j : Nat}
    {wj : WriterState} (hwj : ws[j]? = some wj)
    (h : wHolds wj.phase = true) : writerHoldsL ws j = true := by
  unfold writerHoldsL
  rw [hwj]
  exact h

theorem writerHoldsL_set {ws : List WriterState} {i : Nat} {w : WriterState}
    (v : WriterState) (hw : ws[i]? = some w) (j : Nat) :
    writerHoldsL (ws.set i v) j =
      if j = i then wHolds v.phase else writerHoldsL ws j := by
  have hlt : i < ws.length := (List.getElem?_eq_some_iff.mp hw).1
  by_cases hj : j = i
  · rw [hj, if_pos rfl]
    unfold writerHoldsL
    rw [List.getElem?_set_self hlt]
  · rw [if_neg hj]
    unfold writerHoldsL
    rw [List.getElem?_set_ne (fun h => hj h.symm)]

theorem map_writerPair_set (ws : List WriterState) (i : Nat)
    (w : WriterState) (ph : WPhase) (hw : ws[i]? = some w) :
    (ws.set i ⟨w.newU, w.newP, ph⟩).map writerPair = ws.map writerPair := by
  have hlt : i < ws.length := (List.getElem?_eq_some_iff.mp hw).1
  apply List.ext_getElem?
  intro n
  by_cases hn : n = i
  · rw [hn, List.getElem?_map, List.getElem?_map, List.getElem?_set_self hlt, hw]
    rfl
  · rw [List.getElem?_map, List.getElem?_map,
      List.getElem?_set_ne (fun h => hn h.symm)]

theorem inv_init (u0 p0 : String) (wl : List (String × String)) :
    Inv u0 p0 wl (initState u0 p0 wl) := by
  have hnoh : ∀ i, writerHolds (initState u0 p0 wl) i = false := by
    intro i
    show writerHoldsL (wl.map fun q => ⟨q.1, q.2, .idle⟩) i = false
    unfold writerHoldsL
    rw [List.getElem?_map]
    cases wl[i]? with
    | none => rfl
    | some q => rfl
  refine ⟨?_, ?_, ?_, ?_, ?_, ?_, ?_⟩
  · show (wl.map fun q => (⟨q.1, q.2, .idle⟩ : WriterState)).map writerPair = wl
    rw [List.map_map]
    exact List.map_id wl
  · intro i j hi _
    rw [hnoh i] at hi
    cases hi
  · intro h
    cases h
  · intro _
    exact Or.inl rfl
  · intro i w hw hph
    replace hw : (wl.map fun q => (⟨q.1, q.2, .idle⟩ : WriterState))[i]? = some w := hw
    rw [List.getElem?_map] at hw
    cases hq : wl[i]? with
    | none => rw [hq] at hw; cases hw
    | some q =>
      rw [hq] at hw
      injection hw with hw2
      rw [← hw2] at hph
      cases hph
  · intro h
    cases h
  · intro h
    rcases h with h | h <;> cases h

theorem inv_step {u0 p0 : String} {wl : List (String × String)}
    {s s' : SysState} (hinv : Inv u0 p0 wl s) (hst : Step s s') :
    Inv u0 p0 wl s' := by
  obtain ⟨hpairs, hexcl, hshared, hgood, htrack, hread, hsnap⟩ := hinv
  cases hst with
  | wAcquire i w hw hph hnoW hnoR =>
    refine ⟨?_, ?_, ?_, ?_, ?_, ?_, ?_⟩
    · show (s.writers.set i ⟨w.newU, w.newP, WPhase.locked⟩).map writerPair = wl
      rw [map_writerPair_set s.writers i w WPhase.locked hw]
      exact hpairs
    · intro j k hj hk
      replace hj : writerHoldsL (s.writers.set i ⟨w.newU, w.newP, WPhase.locked⟩) j = true := hj
      replace hk : writerHoldsL (s.writers.set i ⟨w.newU, w.newP, WPhase.locked⟩) k = true := hk
      rw [writerHoldsL_set _ hw] at hj hk
      by_cases hj' : j = i
      · by_cases hk' : k = i
        · rw [hj', hk']
        · rw [if_neg hk'] at hk
          replace hk : writerHolds s k = true := hk
          rw [hnoW k] at hk
          cases hk
      · rw [if_neg hj'] at hj
        replace hj : writerHolds s j = true := hj
        rw [hnoW j] at hj
        cases hj
    · intro h
      replace h : rHolds s.rphase = true := h
      rw [hnoR] at h
      cases h
    · intro hnw
      show GoodPair u0 p0 wl (s.username, s.password)
      apply hgood
      intro j wj hwj hphj
      by_cases hj' : j = i
      · rw [hj', hw] at hwj
        injection hwj with hwj2
        rw [← hwj2, hph] at hphj
        cases hphj
      · have hh : writerHolds s j = true :=
          writerHoldsL_of_phase hwj (by rw [hphj]; rfl)
        rw [hnoW j] at hh
        cases hh
    · intro j wj hwj hphj
      show s.username = wj.newU
      replace hwj : (s.writers.set i ⟨w.newU, w.newP, WPhase.locked⟩)[j]? = some wj := hwj
      have hlt : i < s.writers.length := (List.getElem?_eq_some_iff.mp hw).1
      by_cases hj' : j = i
      · rw [hj', List.getElem?_set_self hlt] at hwj
        injection hwj with hwj2
        rw [← hwj2] at hphj
        cases hphj
      · rw [List.getElem?_set_ne (fun h => hj' h.symm)] at hwj
        exact htrack j wj hwj hphj
    · intro h
      exact hread h
    · intro h
      exact hsnap h
  | wWriteU i w hw hph =>
    have hiholds : writerHolds s i = true :=
      writerHoldsL_of_phase hw (by rw [hph]; rfl)
    have hlt : i < s.writers.length := (List.getElem?_eq_some_iff.mp hw).1
    refine ⟨?_, ?_, ?_, ?_, ?_, ?_, ?_⟩
    · show (s.writers.set i ⟨w.newU, w.newP, WPhase.wroteU⟩).map writerPair = wl
      rw [map_writerPair_set s.writers i w WPhase.wroteU hw]
      exact hpairs
    · intro j k hj hk
      replace hj : writerHoldsL (s.writers.set i ⟨w.newU, w.newP, WPhase.wroteU⟩) j = true := hj
      replace hk : writerHoldsL (s.writers.set i ⟨w.newU, w.newP, WPhase.wroteU⟩) k = true := hk
      rw [writerHoldsL_set _ hw] at hj hk
      by_cases hj' : j = i
      · by_cases hk' : k = i
        · rw [hj', hk']
        · rw [if_neg hk'] at hk
          exact absurd (hexcl k i hk hiholds) hk'
      · rw [if_neg hj'] at hj
        exact absurd (hexcl j i hj hiholds) hj'
    · intro h
      replace h : rHolds s.rphase = true := h
      have hc := hshared h i
      rw [hiholds] at hc
      cases hc
    · intro hnw
      exfalso
      refine hnw i ⟨w.newU, w.newP, WPhase.wroteU⟩ ?_ rfl
      show (s.writers.set i ⟨w.newU, w.newP, WPhase.wroteU⟩)[i]? = _
      rw [List.getElem?_set_self hlt]
    · intro j wj hwj hphj
      show w.newU = wj.newU
      replace hwj : (s.writers.set i ⟨w.newU, w.newP, WPhase.wroteU⟩)[j]? = some wj := hwj
      by_cases hj' : j = i
      · rw [hj', List.getElem?_set_self hlt] at hwj
        injection hwj with hwj2
        rw [← hwj2]
      · rw [List.getElem?_set_ne (fun h => hj' h.symm)] at hwj
        have hh : writerHolds s j = true :=
          writerHoldsL_of_phase hwj (by rw [hphj]; rfl)
        exact absurd (hexcl j i hh hiholds) hj'
    · intro h
      exfalso
      replace h : s.rphase = RPhase.readU := h
      have hr : rHolds s.rphase = true := by rw [h]; rfl
      have hc := hshared hr i
      rw [hiholds] at hc
      cases hc
    · intro h
      exact hsnap h
  | wWriteP i w hw hph =>
    have hiholds : writerHolds s i = true :=
      writerHoldsL_of_phase hw (by rw [hph]; rfl)
    have hlt : i < s.writers.length := (List.getElem?_eq_some_iff.mp hw).1
    refine ⟨?_, ?_, ?_, ?_, ?_, ?_, ?_⟩
    · show (s.writers.set i ⟨w.newU, w.newP, WPhase.wroteP⟩).map writerPair = wl
      rw [map_writerPair_set s.writers i w WPhase.wroteP hw]
      exact hpairs
    · intro j k hj hk
      replace hj : writerHoldsL (s.writers.set i ⟨w.newU, w.newP, WPhase.wroteP⟩) j = true := hj
      replace hk : writerHoldsL (s.writers.set i ⟨w.newU, w.newP, WPhase.wroteP⟩) k = true := hk
      rw [writerHoldsL_set _ hw] at hj hk
      by_cases hj' : j = i
      · by_cases hk' : k = i
        · rw [hj', hk']
        · rw [if_neg hk'] at hk
          exact absurd (hexcl k i hk hiholds) hk'
      · rw [if_neg hj'] at hj
        exact absurd (hexcl j i hj hiholds) hj'
    · intro h
      replace h : rHolds s.rphase = true := h
      have hc := hshared h i
      rw [hiholds] at hc
      cases hc
    · intro _
      show GoodPair u0 p0 wl (s.username, w.newP)
      rw [htrack i w hw hph]
      refine Or.inr ?_
      rw [← hpairs]
      exact List.mem_map_of_mem writerPair (List.getElem?_mem hw)
    · intro j wj hwj hphj
      show s.username = wj.newU
      replace hwj : (s.writers.set i ⟨w.newU, w.newP, WPhase.wroteP⟩)[j]? = some wj := hwj
      by_cases hj' : j = i
      · rw [hj', List.getElem?_set_self hlt] at hwj
        injection hwj with hwj2
        rw [← hwj2] at hphj
        cases hphj
      · rw [List.getElem?_set_ne (fun h => hj' h.symm)] at hwj
        have hh : writerHolds s j = true :=
          writerHoldsL_of_phase hwj (by rw [hphj]; rfl)
        exact absurd (hexcl j i hh hiholds) hj'
    · intro h
      exact hread h
    · intro h
      exact hsnap h
  | wRelease i w hw hph =>
    have hiholds : writerHolds s i = true :=
      writerHoldsL_of_phase hw (by rw [hph]; rfl)
    have hlt : i < s.writers.length := (List.getElem?_eq_some_iff.mp hw).1
    refine ⟨?_, ?_, ?_, ?_, ?_, ?_, ?_⟩
    · show (s.writers.set i ⟨w.newU, w.newP, WPhase.done⟩).map writerPair = wl
      rw [map_writerPair_set s.writers i w WPhase.done hw]
      exact hpairs
    · intro j k hj hk
      replace hj : writerHoldsL (s.writers.set i ⟨w.newU, w.newP, WPhase.done⟩) j = true := hj
      replace hk : writerHoldsL (s.writers.set i ⟨w.newU, w.newP, WPhase.done⟩) k = true := hk
      rw [writerHoldsL_set _ hw] at hj hk
      by_cases hj' : j = i
      · rw [if_pos hj'] at hj
        cases hj
      · rw [if_neg hj'] at hj
        by_cases hk' : k = i
        · rw [if_pos hk'] at hk
          cases hk
        · rw [if_neg hk'] at hk
          exact hexcl j k hj hk
    · intro h
      replace h : rHolds s.rphase = true := h
      have hc := hshared h i
      rw [hiholds] at hc
      cases hc
    · intro hnw
      show GoodPair u0 p0 wl (s.username, s.password)
      apply hgood
      intro j wj hwj hphj
      by_cases hj' : j = i
      · rw [hj', hw] at hwj
        injection hwj with hwj2
        rw [← hwj2, hph] at hphj
        cases hphj
      · have hh : writerHolds s j = true :=
          writerHoldsL_of_phase hwj (by rw [hphj]; rfl)
        exact absurd (hexcl j i hh hiholds) hj'
    · intro j wj hwj hphj
      show s.username = wj.newU
      replace hwj : (s.writers.set i ⟨w.newU, w.newP, WPhase.done⟩)[j]? = some wj := hwj
      by_cases hj' : j = i
      · rw [hj', List.getElem?_set_self hlt] at hwj
        injection hwj with hwj2
        rw [← hwj2] at hphj
        cases hphj
      · rw [List.getElem?_set_ne (fun h => hj' h.symm)] at hwj
        have hh : writerHolds s j = true :=
          writerHoldsL_of_phase hwj (by rw [hphj]; rfl)
        exact absurd (hexcl j i hh hiholds) hj'
    · intro h
      exact hread h
    · intro h
      exact hsnap h
  | rAcquire hph hnoW =>
    refine ⟨hpairs, hexcl, ?_, hgood, htrack, ?_, ?_⟩
    · intro _ j
      exact hnoW j
    · intro h
      cases h
    · intro h
      rcases h with h | h <;> cases h
  | rReadU hph =>
    refine ⟨hpairs, hexcl, ?_, hgood, htrack, ?_, ?_⟩
    · intro _ j
      refine hshared ?_ j
      rw [hph]
      rfl
    · intro _
      rfl
    · intro h
      rcases h with h | h <;> cases h
  | rReadP hph =>
    refine ⟨hpairs, hexcl, ?_, hgood, htrack, ?_, ?_⟩
    · intro _ j
      refine hshared ?_ j
      rw [hph]
      rfl
    · intro h
      cases h
    · intro _
      show GoodPair u0 p0 wl (s.regU, s.password)
      have hnw : noWroteU s.writers := by
        intro j wj hwj hphj
        have hh : writerHolds s j = true :=
          writerHoldsL_of_phase hwj (by rw [hphj]; rfl)
        have hr : rHolds s.rphase = true := by rw [hph]; rfl
        have hc := hshared hr j
        rw [hh] at hc
        cases hc
      rw [hread hph]
      exact hgood hnw
  | rRelease hph =>
    refine ⟨hpairs, hexcl, ?_, hgood, htrack, ?_, ?_⟩
    · intro h
      cases h
    · intro h
      cases h
    · intro _
      exact hsnap (Or.inl hph)

theorem inv_reachable (u0 p0 : String) (wl : List (String × String))
    {s : SysState} (hr : Reachable (initState u0 p0 wl) s) :
    Inv u0 p0 wl s := by
  induction hr with
  | refl => exact inv_init u0 p0 wl
  | step _ hst ih => exact inv_step ih hst

/-- C1: in every interleaving of the in-flight operation's credential read
with any set of concurrent `SetCredentials` writers, once the snapshot is
taken it is exactly the initial pair or the complete pair of a single
`SetCredentials` call — never a mixed pair and never a value mutated
mid-read; and once the read has completed, no further step changes the
snapshot (the operation keeps the by-value copy handed to
`soap.NewClient`). -/
theorem credentials_snapshot_consistent (u0 p0 : String)
    (wl : List (String × String)) (s : SysState)
    (hr : Reachable (initState u0 p0 wl) s) :
    ((s.rphase = RPhase.readP ∨ s.rphase = RPhase.done) →
      ((s.regU, s.regP) = (u0, p0) ∨ (s.regU, s.regP) ∈ wl)) ∧
    (∀ s' : SysState, Step s s' → s.rphase = RPhase.done →
      s'.regU = s.regU ∧ s'.regP = s.regP) := by
  constructor
  · exact fun h => (inv_reachable u0 p0 wl hr).snapGood h
  · intro s' hst hdone
    cases hst with
    | wAcquire i w hw hph hnoW hnoR => exact ⟨rfl, rfl⟩
    | wWriteU i w hw hph => exact ⟨rfl, rfl⟩
    | wWriteP i w hw hph => exact ⟨rfl, rfl⟩
    | wRelease i w hw hph => exact ⟨rfl, rfl⟩
    | rAcquire hph hnoW => rw [hdone] at hph; cases hph
    | rReadU hph => rw [hdone] at hph; cases hph
    | rReadP hph => rw [hdone] at hph; cases hph
    | rRelease hph => rw [hdone] at hph; cases hph

/-- The state after the in-flight operation completed its snapshot while a
single pending writer has not yet run. -/
def snapDoneState : SysState :=
  ⟨"u0", "p0", [⟨"u1", "p1", WPhase.idle⟩], RPhase.done, "u0", "p0"⟩

/-- Witness for `credentials_snapshot_consistent`: the concrete execution
acquire-read-read-release from initial credentials `("u0", "p0")` with one
pending writer `("u1", "p1")`, and the stability of the completed snapshot
under that writer's subsequent lock acquisition. -/
theorem credentials_snapshot_consistent_witness :
    ((snapDoneState.regU, snapDoneState.regP) = ("u0", "p0") ∨
      (snapDoneState.regU, snapDoneState.regP) ∈ [("u1", "p1")]) ∧
    ({ snapDoneState with
        writers := snapDoneState.writers.set 0 ⟨"u1", "p1", WPhase.locked⟩ } :
      SysState).regU = snapDoneState.regU := by
  have h0 : Reachable (initState "u0" "p0" [("u1", "p1")])
      (initState "u0" "p0" [("u1", "p1")]) := Reachable.refl
  have h1 := Reachable.step h0 (Step.rAcquire rfl (fun j => by cases j <;> rfl))
  have h2 := Reachable.step h1 (Step.rReadU rfl)
  have h3 := Reachable.step h2 (Step.rReadP rfl)
  have h4 := Reachable.step h3 (Step.rRelease rfl)
  have hmain := credentials_snapshot_consistent "u0" "p0" [("u1", "p1")]
    snapDoneState h4
  refine ⟨hmain.1 (Or.inr rfl), ?_⟩
  exact (hmain.2 _ (Step.wAcquire 0 ⟨"u1", "p1", WPhase.idle⟩ rfl rfl
    (fun j => by cases j <;> rfl) rfl) rfl).1

end Onvif
